import Mathlib

/-!
Shallow embedding of the AI_Interview_Bot repository (Python sources under
`src/`), covering the parts of the code that the specification talks about:

* `src/components/ai_engine.py` — question generation with fallback, the
  heuristic evaluator (`_rate_skill_from_responses`,
  `_rate_criteria_from_responses`, `_evaluate_skills`,
  `_generate_evaluation_report`, `_generate_recommendations`,
  `evaluate_responses`, `_get_fallback_evaluation`);
* `src/app.py` — the interview-process navigation state machine
  (`_render_interview_process`, `_initialize_session_state`,
  `_complete_interview`);
* `src/utils/helpers.py` — `sanitize_filename`;
* `src/utils/config.py` — the default configuration constants.

Numbers are modelled with `ℚ` (the Python code uses floats only through
sums, divisions by small numerals and comparisons with decimal literals,
all of which are exact here).  Python's `round(x, 1)` is modelled as exact
round-half-to-even at one decimal.  A Python function that can raise an
exception observable by its caller is modelled with `Except Unit`.
External network calls are modelled as `Option String` parameters:
`none` is the raised-exception outcome, `some t` a successful reply `t`.
-/

namespace InterviewBot

/-- Python `round(q, 1)`: round half to even, at one decimal digit.
(`src/components/ai_engine.py`, line 258 uses `round(overall_score, 1)`.) -/
def pyRound (q : ℚ) : ℤ :=
  let f : ℤ := ⌊q⌋
  let frac : ℚ := q - f
  if frac < 1/2 then f
  else if frac > 1/2 then f + 1
  else if f % 2 = 0 then f else f + 1

/-- Round a rational to one decimal place, as Python `round(x, 1)`. -/
def pyRound1 (q : ℚ) : ℚ := (pyRound (10 * q) : ℚ) / 10

/-- Prefix test on character lists. -/
def prefixCheck : List Char → List Char → Bool
  | [], _ => true
  | _ :: _, [] => false
  | a :: as, b :: bs => a = b && prefixCheck as bs

/-- Substring scan on character lists: does `needle` occur in `hay`? -/
def containsSubList (needle : List Char) : List Char → Bool
  | [] => prefixCheck needle []
  | c :: rest => prefixCheck needle (c :: rest) || containsSubList needle rest

/-- Python substring test `needle in hay` on strings. -/
def containsSub (needle hay : String) : Bool :=
  containsSubList needle.toList hay.toList

/-- Python `str.lower()` (the sources only ever lower-case ASCII titles,
skill names and answers). -/
def lowerStr (s : String) : String := String.mk (s.toList.map Char.toLower)

/-- Python `str.strip()` on a character list: drop leading and trailing
whitespace. -/
def stripChars (s : List Char) : List Char :=
  ((s.dropWhile Char.isWhitespace).reverse.dropWhile Char.isWhitespace).reverse

/-- Python `str.strip()` on strings. -/
def trimStr (s : String) : String := String.mk (stripChars s.toList)

/-- Python `str.startswith(pre)`. -/
def startsWithStr (s pre : String) : Bool := prefixCheck pre.toList s.toList

/-- Python slicing `s[n:]` on strings (character based). -/
def dropStr (s : String) (n : ℕ) : String := String.mk (s.toList.drop n)

/-- Python `c in s` for a single character. -/
def containsChar (s : String) (c : Char) : Bool := s.toList.contains c

/-- Split a character list at every occurrence of a separator character,
keeping empty segments, as Python `str.split(sep)` does. -/
def splitOnCharList (sep : Char) : List Char → List (List Char)
  | [] => [[]]
  | c :: rest =>
    if c = sep then [] :: splitOnCharList sep rest
    else
      match splitOnCharList sep rest with
      | [] => [[c]]
      | seg :: segs => (c :: seg) :: segs

/-- Python `text.split(newline)`. -/
def splitLines (s : String) : List String :=
  (splitOnCharList (Char.ofNat 10) s.toList).map String.mk

/-- Role record (`role_data` dictionaries; see `data/roles.json` shape used
throughout `src/components/ai_engine.py`). -/
structure Role where
  title : String
  description : String
  key_skills : List String
  experience_level : String
deriving DecidableEq, Repr

/-- One question/answer pair as stored in `st.session_state.qa_pairs`
(`src/app.py`, lines 362-372 and 383-393). -/
structure QAPair where
  question : String
  answer : String
  duration : ℚ
deriving DecidableEq, Repr

/-- `Config.MAX_QUESTION_COUNT` default (`src/utils/config.py`, line 21). -/
def MAX_QUESTION_COUNT : ℕ := 7

/-- `Config.MIN_QUESTION_COUNT` default (`src/utils/config.py`, line 22). -/
def MIN_QUESTION_COUNT : ℕ := 5

/-- `Config.EVALUATION_CRITERIA` (`src/utils/config.py`, lines 55-62). -/
def EVALUATION_CRITERIA : List String :=
  ["Technical Skills", "Communication", "Problem Solving",
   "Experience Relevance", "Cultural Fit", "Leadership Potential"]

/-- The `skill_keywords` dictionary lookup with default `[skill.lower()]`
(`src/components/ai_engine.py`, lines 286-294). -/
def skillKeywords (skill : String) : List String :=
  if skill = "JavaScript" then ["javascript", "js", "react", "vue", "angular", "node"]
  else if skill = "Python" then ["python", "django", "flask", "pandas", "numpy"]
  else if skill = "Communication" then ["explain", "team", "collaborate", "present", "discuss"]
  else if skill = "Leadership" then ["lead", "manage", "mentor", "guide", "decision"]
  else if skill = "Problem Solving" then ["solve", "challenge", "debug", "analyze", "approach"]
  else [lowerStr skill]

/-- The body of the scoring loop of `AIEngine._rate_skill_from_responses`
(`src/components/ai_engine.py`, lines 299-310): count matching keywords in
the lower-cased answer, add `min(keyword_count * 0.3, 1.0)` when any
matched, and a `0.2` bonus for answers longer than 100 characters. -/
def rateSkillStep (keywords : List String) (acc : ℚ) (qa : QAPair) : ℚ :=
  let answer_lower := lowerStr qa.answer
  let keyword_count : ℕ := (keywords.filter (fun k => containsSub k answer_lower)).length
  let acc := if keyword_count > 0 then acc + min ((keyword_count : ℚ) * (3/10)) 1 else acc
  if qa.answer.length > 100 then acc + 1/5 else acc

/-- `AIEngine._rate_skill_from_responses` (`src/components/ai_engine.py`,
lines 283-314).  The accumulation loop over `qa_pairs` is a `foldl` of
`rateSkillStep`; the final `score / total_responses` raises
`ZeroDivisionError` in Python when `qa_pairs` is empty, modelled by
`Except.error`. -/
def rateSkillFromResponses (skill : String) (qa_pairs : List QAPair) : Except Unit ℚ :=
  let keywords := skillKeywords skill
  let score : ℚ := qa_pairs.foldl (rateSkillStep keywords) 0
  if qa_pairs.length = 0 then Except.error ()
  else Except.ok (min 5 (max 1 (1 + (score / (qa_pairs.length : ℚ)) * 4)))

/-- `AIEngine._rate_criteria_from_responses` (`src/components/ai_engine.py`,
lines 316-330).  The `criteria` argument is unused, exactly as in the
source. -/
def rateCriteriaFromResponses (_criteria : String) (qa_pairs : List QAPair) : ℚ :=
  let total_length : ℚ := (qa_pairs.map (fun qa => (qa.answer.length : ℚ))).sum
  let avg_length : ℚ := if qa_pairs.length ≠ 0 then total_length / (qa_pairs.length : ℚ) else 0
  if avg_length > 200 then 4 + (min avg_length 500 - 200) / 300
  else if avg_length > 100 then 3 + (avg_length - 100) / 100
  else if avg_length > 50 then 2 + (avg_length - 50) / 50
  else 1 + avg_length / 50

/-- Insertion into the `skill_ratings` dictionary, preserving Python dict
semantics: an existing key keeps its position and gets the new value, a new
key is appended. -/
def insertRating (m : List (String × ℚ)) (k : String) (v : ℚ) : List (String × ℚ) :=
  if m.any (fun p => p.1 = k) then m.map (fun p => if p.1 = k then (p.1, v) else p)
  else m ++ [(k, v)]

/-- `AIEngine._evaluate_skills` (`src/components/ai_engine.py`, lines
266-281): rate every key skill, then every evaluation criterion not already
present.  Propagates the `ZeroDivisionError` of
`rateSkillFromResponses`. -/
def evaluateSkills (role : Role) (qa_pairs : List QAPair) :
    Except Unit (List (String × ℚ)) := do
  let withSkills ← role.key_skills.foldlM (fun m skill => do
    let rating ← rateSkillFromResponses skill qa_pairs
    pure (insertRating m skill rating)) ([] : List (String × ℚ))
  pure (EVALUATION_CRITERIA.foldl (fun m criteria =>
    if m.any (fun p => p.1 = criteria) then m
    else insertRating m criteria (rateCriteriaFromResponses criteria qa_pairs)) withSkills)

/-- String join, as Python `sep.join(items)`. -/
def joinSep (sep : String) : List String → String
  | [] => ""
  | [x] => x
  | x :: xs => x ++ sep ++ joinSep sep xs

/-- `AIEngine._generate_recommendations` (`src/components/ai_engine.py`,
lines 332-353), written in the order the Python code appends to its
`recommendations` list. -/
def generateRecommendations (overall_score : ℚ) (skill_ratings : List (String × ℚ)) :
    List String :=
  let recommendations : List String :=
    if overall_score ≥ 4 then ["Strong candidate - Recommend for next round"]
    else if overall_score ≥ 3 then ["Good candidate - Consider for next round with reservations"]
    else ["May not be the right fit for this role"]
  let strengths := (skill_ratings.filter (fun p => p.2 ≥ 4)).map Prod.fst
  let weaknesses := (skill_ratings.filter (fun p => p.2 < 5/2)).map Prod.fst
  let recommendations :=
    if strengths ≠ [] then
      recommendations ++ ["Key strengths: " ++ joinSep ", " (strengths.take 3)]
    else recommendations
  if weaknesses ≠ [] then
    recommendations ++ ["Areas for development: " ++ joinSep ", " (weaknesses.take 3)]
  else recommendations

/-- The evaluation dictionary returned by the engine
(`src/components/ai_engine.py`, lines 257-264 and 357-364); the wall-clock
`evaluation_date` field is omitted. -/
structure Evaluation where
  overall_score : ℚ
  summary : String
  skill_ratings : List (String × ℚ)
  recommendations : List String
  total_questions : ℕ
deriving DecidableEq, Repr

/-- `AIEngine._generate_evaluation_report` (`src/components/ai_engine.py`,
lines 215-264).  `apiSummary` stands for the inner summary call, whose
failure is swallowed by the bare `except` on line 248.  Note the source
stores `round(overall_score, 1)` but passes the unrounded value to
`_generate_recommendations`. -/
def generateEvaluationReport (role : Role) (qa_pairs : List QAPair)
    (apiSummary : Option String) : Except Unit Evaluation := do
  let summary := apiSummary.getD "Unable to generate AI summary. Manual review recommended."
  let skill_ratings ← evaluateSkills role qa_pairs
  let overall_score : ℚ :=
    if skill_ratings.length ≠ 0 then
      (skill_ratings.map Prod.snd).sum / (skill_ratings.length : ℚ)
    else 0
  pure { overall_score := pyRound1 overall_score
         summary := summary
         skill_ratings := skill_ratings
         recommendations := generateRecommendations overall_score skill_ratings
         total_questions := qa_pairs.length }

/-- `AIEngine._get_fallback_evaluation` (`src/components/ai_engine.py`,
lines 355-364).  The dict comprehension `{skill: 3.0 for skill in
role_data['key_skills']}` is the left fold of `insertRating` with value
`3`. -/
def getFallbackEvaluation (role : Role) (qa_pairs : List QAPair) : Evaluation :=
  { overall_score := 3
    summary := "Evaluation generated using fallback method. Manual review recommended."
    skill_ratings := role.key_skills.foldl (fun m skill => insertRating m skill 3) []
    recommendations := ["Manual evaluation required", "Review responses manually"]
    total_questions := qa_pairs.length }

/-- `AIEngine.evaluate_responses` (`src/components/ai_engine.py`, lines
198-213): any exception from report generation is caught and replaced by
the fallback evaluation. -/
def evaluateResponses (role : Role) (qa_pairs : List QAPair)
    (apiSummary : Option String) : Evaluation :=
  match generateEvaluationReport role qa_pairs apiSummary with
  | Except.ok report => report
  | Except.error _ => getFallbackEvaluation role qa_pairs

/-- The per-line selection of `AIEngine._parse_questions`
(`src/components/ai_engine.py`, lines 142-150): a stripped line starting
with `Q:` contributes its remainder when that exceeds 10 characters; a
stripped line containing `?` contributes itself when longer than 20
characters. -/
def parseQuestionsLine (line : String) : List String :=
  if startsWithStr (trimStr line) "Q:" then
    if (trimStr (dropStr (trimStr line) 2)).length > 10 then [trimStr (dropStr (trimStr line) 2)]
    else []
  else if containsChar (trimStr line) (Char.ofNat 63) && (trimStr line).length > 20 then
    [trimStr line]
  else []

/-- `AIEngine._parse_questions` (`src/components/ai_engine.py`, lines
137-152): the append loop over `generated_text.split` keeps selected lines
in order. -/
def parseQuestions (generated_text : String) : List String :=
  (splitLines generated_text).flatMap parseQuestionsLine

/-- The seven generic fallback questions of
`AIEngine._get_fallback_questions` (`src/components/ai_engine.py`, lines
158-166). -/
def baseFallbackQuestions (role : Role) : List String :=
  ["Tell me about your experience in " ++ role.title ++ " roles.",
   "What attracted you to this position and our company?",
   "Describe a challenging project you\x27ve worked on recently.",
   "How do you stay updated with industry trends and technologies?",
   "Tell me about a time you had to work under pressure or tight deadlines.",
   "How do you approach problem-solving in your work?",
   "Describe your experience working in a team environment."]

/-- `AIEngine._get_fallback_questions` (`src/components/ai_engine.py`,
lines 154-190): the generic bank, extended with three role-specific
questions by keyword matching on the lower-cased title, truncated to
`MAX_QUESTION_COUNT`. -/
def getFallbackQuestions (role : Role) : List String :=
  (if containsSub "developer" (lowerStr role.title) || containsSub "engineer" (lowerStr role.title) then
    baseFallbackQuestions role ++
      ["Walk me through your development process from requirement to deployment.",
       "How do you ensure code quality and maintainability?",
       "Describe a technical challenge you overcame recently."]
  else if containsSub "data" (lowerStr role.title) then
    baseFallbackQuestions role ++
      ["How do you approach data analysis for business problems?",
       "What tools and technologies do you prefer for data work?",
       "Describe a data project that had significant business impact."]
  else if containsSub "manager" (lowerStr role.title) then
    baseFallbackQuestions role ++
      ["How do you prioritize features and make product decisions?",
       "Describe your experience with stakeholder management.",
       "Tell me about a successful product launch you\x27ve managed."]
  else baseFallbackQuestions role).take MAX_QUESTION_COUNT

/-- `AIEngine._generate_questions` (`src/components/ai_engine.py`, lines
47-86).  `apiText` is the outcome of `_query_huggingface_api`: `none` when
the call raised (then the `except` branch returns the fallback bank),
`some t` on success. -/
def generateQuestions (role : Role) (apiText : Option String) : List String :=
  match apiText with
  | none => getFallbackQuestions role
  | some text =>
    let parsed_questions := parseQuestions text
    let parsed_questions :=
      if parsed_questions.length < MIN_QUESTION_COUNT then
        parsed_questions ++ getFallbackQuestions role
      else parsed_questions
    parsed_questions.take MAX_QUESTION_COUNT

/-!  The interview-process state machine of `src/app.py`. -/

/-- The wizard steps of `src/app.py` (`valid_steps`, lines 21-24). -/
inductive Step where
  | welcome
  | interview_setup
  | interview_process
  | interview_complete
  | view_reports
deriving DecidableEq, Repr

/-- The part of `st.session_state` the interview-process page mutates
(`_initialize_session_state`, `src/app.py` lines 62-81): the question
cursor, the stored answers and the completion flag. -/
structure SessionState where
  current_question_index : ℕ
  qa_pairs : List QAPair
  interview_complete : Bool
deriving DecidableEq, Repr

/-- Defaults from `_initialize_session_state` (`src/app.py`, lines 65-77):
`current_question_index = 0`, `qa_pairs = []`,
`interview_complete = False`. -/
def initSession : SessionState :=
  { current_question_index := 0, qa_pairs := [], interview_complete := false }

/-- The save-answer idiom of `src/app.py` (lines 361-372 and 390-393):
overwrite `qa_pairs[i]` when `i < len(qa_pairs)`, otherwise append. -/
def writeAt (l : List QAPair) (i : ℕ) (p : QAPair) : List QAPair :=
  if i < l.length then l.set i p else l ++ [p]

/-- The two navigation events of `_render_interview_process`
(`src/app.py`, lines 355-401), each carrying the transcript and recording
duration present when the button is clicked. -/
inductive NavEvent where
  | nextQuestion (transcript : String) (duration : ℚ)
  | previousQuestion (transcript : String) (duration : ℚ)
deriving DecidableEq, Repr

/-- One pass of `_render_interview_process` (`src/app.py`, lines 315-405)
reacting to a navigation click.  The navigation buttons are only rendered
when `transcript.strip()` is non-empty (line 352); the Previous button only
when `current_index > 0` (line 358); Next saves the answer and either
advances or completes (lines 381-401); when `current_index` is not below
`len(questions)` the page completes the interview (lines 403-405). -/
def stepSession (questions : List String) (s : SessionState) (e : NavEvent) : SessionState :=
  if s.interview_complete then s
  else if h : s.current_question_index < questions.length then
    let current_question := questions.get ⟨s.current_question_index, h⟩
    match e with
    | NavEvent.nextQuestion transcript duration =>
      if trimStr transcript = "" then s
      else
        let qa_pairs := writeAt s.qa_pairs s.current_question_index
          { question := current_question, answer := transcript, duration := duration }
        if s.current_question_index < questions.length - 1 then
          { current_question_index := s.current_question_index + 1
            qa_pairs := qa_pairs
            interview_complete := false }
        else
          { current_question_index := s.current_question_index
            qa_pairs := qa_pairs
            interview_complete := true }
    | NavEvent.previousQuestion transcript duration =>
      if trimStr transcript = "" then s
      else if s.current_question_index > 0 then
        { current_question_index := s.current_question_index - 1
          qa_pairs := writeAt s.qa_pairs s.current_question_index
            { question := current_question, answer := transcript, duration := duration }
          interview_complete := false }
      else s
  else { s with interview_complete := true }

/-- A session reachable from the initial state by a sequence of navigation
clicks. -/
def runSession (questions : List String) (events : List NavEvent) : SessionState :=
  events.foldl (stepSession questions) initSession

/-- `InterviewBot._complete_interview` (`src/app.py`, lines 407-459):
evaluation is produced by `evaluate_responses`; if report generation or
saving then raises (`saveOk = false`), the `except` branch substitutes the
basic fallback evaluation of lines 452-457; both branches set
`current_step = interview_complete`. -/
def completeInterview (role : Role) (qa_pairs : List QAPair)
    (apiSummary : Option String) (saveOk : Bool) : Step × Evaluation :=
  let evaluation := evaluateResponses role qa_pairs apiSummary
  if saveOk then (Step.interview_complete, evaluation)
  else (Step.interview_complete,
    { overall_score := 3
      summary := "Evaluation failed. Manual review required."
      skill_ratings := []
      recommendations := ["Manual evaluation needed"]
      total_questions := qa_pairs.length })

/-!  `sanitize_filename` from `src/utils/helpers.py`. -/

/-- The nine characters Python rejects in `sanitize_filename`
(`src/utils/helpers.py`, line 68). -/
def invalidChars : List Char :=
  ['<', '>', ':', '\x22', '/', '\\', '|', '\x3f', '*']

/-- One pass of `filename.replace(char, underscore)`. -/
def replaceChar (s : List Char) (c : Char) : List Char :=
  s.map (fun x => if x = c then '_' else x)

/-- `sanitize_filename` (`src/utils/helpers.py`, lines 66-71): replace each
invalid character by an underscore, one `replace` call per character, then
strip surrounding whitespace. -/
def sanitizeFilename (filename : String) : String :=
  String.mk (stripChars (invalidChars.foldl replaceChar filename.toList))

/-!  Concrete sample inputs used by counterexamples and witnesses. -/

/-- A role with no required skills, title `X`. -/
def roleNoSkills : Role :=
  { title := "X", description := "", key_skills := [], experience_level := "" }

/-- A role requiring the single skill `Python`. -/
def rolePython : Role :=
  { title := "X", description := "", key_skills := ["Python"], experience_level := "" }

/-- A single answer of exactly 30 characters. -/
def shortAnswerPairs : List QAPair :=
  [{ question := "q", answer := String.mk (List.replicate 30 'a'), duration := 0 }]

/-- A single six-character answer that mentions python. -/
def pythonAnswerPairs : List QAPair :=
  [{ question := "q", answer := "python", duration := 0 }]

/-- A three-question interview. -/
def threeQuestions : List String := ["q0", "q1", "q2"]

/-- Submit the first two answers, then navigate back once (storing the
third transcript on the way). -/
def forwardBackTrace : List NavEvent :=
  [NavEvent.nextQuestion "a" 0, NavEvent.nextQuestion "b" 0,
   NavEvent.previousQuestion "c" 0]

/-!  Helper lemmas. -/

/-- Everything surviving a strip was in the original list. -/
lemma mem_of_mem_stripChars {c : Char} {l : List Char} (h : c ∈ stripChars l) : c ∈ l := by
  unfold stripChars at h
  rw [List.mem_reverse] at h
  have h2 := List.dropWhile_subset _ h
  rw [List.mem_reverse] at h2
  exact List.dropWhile_subset _ h2

/-- Character-by-character replacement of a list of characters by
underscores equals one simultaneous replacement. -/
lemma foldl_replaceChar (cs : List Char) (s : List Char) :
    List.foldl replaceChar s cs = s.map (fun x => if x ∈ cs then '_' else x) := by
  induction cs generalizing s with
  | nil =>
    simp only [List.foldl_nil, List.not_mem_nil, if_false]
    exact (List.map_id s).symm
  | cons c cs ih =>
    rw [List.foldl_cons, ih]
    unfold replaceChar
    rw [List.map_map]
    apply List.map_congr_left
    intro x _
    by_cases hx : x = c
    · subst hx
      by_cases hc : x ∈ cs <;> simp [hc]
    · by_cases hc : x ∈ cs <;> simp [Function.comp, hx, hc]

/-- Simultaneous replacement of the nine invalid filename characters. -/
def replaceInvalid (c : Char) : Char := if c ∈ invalidChars then '_' else c

/-- C10: `sanitize_filename` replaces every occurrence of the nine
characters `< > : " / \ | ? *` by an underscore, strips leading and
trailing whitespace, leaves all other characters in their original order,
and its result contains none of the nine characters. -/
theorem sanitizeFilename_replaces_and_strips (s : String) :
    sanitizeFilename s = String.mk (stripChars (s.toList.map replaceInvalid)) ∧
    ∀ c ∈ (sanitizeFilename s).toList, c ∉ invalidChars := by
  have key : sanitizeFilename s = String.mk (stripChars (s.toList.map replaceInvalid)) := by
    unfold sanitizeFilename
    rw [foldl_replaceChar]
    rfl
  refine ⟨key, ?_⟩
  intro c hc
  rw [key] at hc
  have hc' : c ∈ stripChars (s.toList.map replaceInvalid) := hc
  have hmem := mem_of_mem_stripChars hc'
  rw [List.mem_map] at hmem
  obtain ⟨x, _, hx⟩ := hmem
  unfold replaceInvalid at hx
  by_cases hinv : x ∈ invalidChars
  · rw [if_pos hinv] at hx
    subst hx
    decide
  · rw [if_neg hinv] at hx
    subst hx
    exact hinv

/-- Witness for C10 at the concrete input `" a?b* "`. -/
theorem sanitizeFilename_replaces_and_strips_witness :
    sanitizeFilename " a?b* " = "a_b_" ∧
    ∀ c ∈ (sanitizeFilename " a?b* ").toList, c ∉ invalidChars :=
  ⟨by decide, (sanitizeFilename_replaces_and_strips " a?b* ").2⟩

/-- A string of positive length is not empty. -/
lemma ne_empty_of_pos_length {s : String} (h : 0 < s.length) : s ≠ "" := by
  intro he
  subst he
  have hz : ("" : String).length = 0 := rfl
  omega

/-- Every generic fallback question is a non-empty string, whatever the
role title is. -/
lemma mem_baseFallbackQuestions_ne_empty (role : Role) :
    ∀ q ∈ baseFallbackQuestions role, q ≠ "" := by
  intro q hq
  unfold baseFallbackQuestions at hq
  simp only [List.mem_cons, List.not_mem_nil, or_false] at hq
  rcases hq with rfl | rfl | rfl | rfl | rfl | rfl | rfl
  · apply ne_empty_of_pos_length
    rw [String.length_append, String.length_append]
    have h1 : (0 : ℕ) < "Tell me about your experience in ".length := by decide
    omega
  all_goals decide

/-- Every fallback question is a non-empty string. -/
lemma mem_getFallbackQuestions_ne_empty (role : Role) :
    ∀ q ∈ getFallbackQuestions role, q ≠ "" := by
  intro q hq
  unfold getFallbackQuestions at hq
  have hq2 := List.take_subset _ _ hq
  have extra : ∀ (l : List String), (∀ x ∈ l, x ≠ "") →
      q ∈ baseFallbackQuestions role ++ l → q ≠ "" := by
    intro l hl hmem
    rw [List.mem_append] at hmem
    rcases hmem with hb | hx
    · exact mem_baseFallbackQuestions_ne_empty role q hb
    · exact hl q hx
  split at hq2
  · refine extra _ ?_ hq2
    intro x hx
    simp only [List.mem_cons, List.not_mem_nil, or_false] at hx
    rcases hx with rfl | rfl | rfl <;> decide
  · split at hq2
    · refine extra _ ?_ hq2
      intro x hx
      simp only [List.mem_cons, List.not_mem_nil, or_false] at hx
      rcases hx with rfl | rfl | rfl <;> decide
    · split at hq2
      · refine extra _ ?_ hq2
        intro x hx
        simp only [List.mem_cons, List.not_mem_nil, or_false] at hx
        rcases hx with rfl | rfl | rfl <;> decide
      · exact mem_baseFallbackQuestions_ne_empty role q hq2

/-- The fallback question bank always yields exactly seven questions. -/
lemma getFallbackQuestions_length (role : Role) :
    (getFallbackQuestions role).length = 7 := by
  unfold getFallbackQuestions MAX_QUESTION_COUNT
  split <;> [skip; split] <;> [skip; skip; split] <;>
    simp [baseFallbackQuestions]

/-- Every question kept by the parser exceeds ten characters. -/
lemma parseQuestions_mem_length {t : String} :
    ∀ q ∈ parseQuestions t, 10 < q.length := by
  intro q hq
  unfold parseQuestions at hq
  rw [List.mem_flatMap] at hq
  obtain ⟨line, _, hline⟩ := hq
  unfold parseQuestionsLine at hline
  split at hline
  · split at hline
    · rename_i hlen
      simp only [List.mem_singleton] at hline
      subst hline
      omega
    · simp at hline
  · split at hline
    · rename_i hcond
      simp only [Bool.and_eq_true, decide_eq_true_eq] at hcond
      simp only [List.mem_singleton] at hline
      subst hline
      omega
    · simp at hline

/-- C2 (amended): `_generate_questions` takes no question-count argument;
under the default configuration it returns between `MIN_QUESTION_COUNT`
(5) and `MAX_QUESTION_COUNT` (7) questions on every path, all of them
non-empty strings — but they need not contain a question mark (see the
counterexample). -/
theorem generateQuestions_counts (role : Role) (apiText : Option String) :
    MIN_QUESTION_COUNT ≤ (generateQuestions role apiText).length ∧
    (generateQuestions role apiText).length ≤ MAX_QUESTION_COUNT ∧
    ∀ q ∈ generateQuestions role apiText, q ≠ "" := by
  cases apiText with
  | none =>
    refine ⟨?_, ?_, ?_⟩
    · rw [show generateQuestions role none = getFallbackQuestions role from rfl,
        getFallbackQuestions_length]
      decide
    · rw [show generateQuestions role none = getFallbackQuestions role from rfl,
        getFallbackQuestions_length]
      decide
    · exact mem_getFallbackQuestions_ne_empty role
  | some t =>
    have hexp : generateQuestions role (some t) =
        (if (parseQuestions t).length < MIN_QUESTION_COUNT then
          parseQuestions t ++ getFallbackQuestions role
        else parseQuestions t).take MAX_QUESTION_COUNT := rfl
    by_cases hp : (parseQuestions t).length < MIN_QUESTION_COUNT
    · rw [hexp, if_pos hp]
      have hlen : ((parseQuestions t ++ getFallbackQuestions role).take
          MAX_QUESTION_COUNT).length = 7 := by
        rw [List.length_take, List.length_append, getFallbackQuestions_length]
        unfold MAX_QUESTION_COUNT
        omega
      refine ⟨by rw [hlen]; decide, by rw [hlen]; decide, ?_⟩
      intro q hq
      have hq2 := List.take_subset _ _ hq
      rw [List.mem_append] at hq2
      rcases hq2 with hq2 | hq2
      · exact ne_empty_of_pos_length (by have := parseQuestions_mem_length q hq2; omega)
      · exact mem_getFallbackQuestions_ne_empty role q hq2
    · rw [hexp, if_neg hp]
      refine ⟨?_, ?_, ?_⟩
      · rw [List.length_take]
        unfold MIN_QUESTION_COUNT at hp ⊢
        unfold MAX_QUESTION_COUNT
        omega
      · rw [List.length_take]
        unfold MAX_QUESTION_COUNT
        omega
      · intro q hq
        have hq2 := List.take_subset _ _ hq
        exact ne_empty_of_pos_length (by have := parseQuestions_mem_length q hq2; omega)

/-- Counterexample for C2 as stated: on the fallback path the first
returned question contains no question mark. -/
theorem generateQuestions_question_mark_counterexample :
    (generateQuestions roleNoSkills none).length = 7 ∧
    "Tell me about your experience in X roles." ∈ generateQuestions roleNoSkills none ∧
    (containsChar "Tell me about your experience in X roles." (Char.ofNat 63)) = false := by
  decide

/-- Witness for C2 (amended) at the concrete role `X` on the fallback
path. -/
theorem generateQuestions_counts_witness :
    (MIN_QUESTION_COUNT ≤ (generateQuestions roleNoSkills none).length ∧
     (generateQuestions roleNoSkills none).length ≤ MAX_QUESTION_COUNT ∧
     ∀ q ∈ generateQuestions roleNoSkills none, q ≠ "") ∧
    (generateQuestions roleNoSkills none).length = 7 :=
  ⟨generateQuestions_counts roleNoSkills none, by decide⟩

/-!  The evaluator: skill and criteria ratings. -/

/-- For a role with no key skills, `_evaluate_skills` rates exactly the six
evaluation criteria, in configuration order. -/
lemma evaluateSkills_no_skills (role : Role) (qa : List QAPair)
    (h : role.key_skills = []) :
    evaluateSkills role qa = Except.ok
      [("Technical Skills", rateCriteriaFromResponses "Technical Skills" qa),
       ("Communication", rateCriteriaFromResponses "Communication" qa),
       ("Problem Solving", rateCriteriaFromResponses "Problem Solving" qa),
       ("Experience Relevance", rateCriteriaFromResponses "Experience Relevance" qa),
       ("Cultural Fit", rateCriteriaFromResponses "Cultural Fit" qa),
       ("Leadership Potential", rateCriteriaFromResponses "Leadership Potential" qa)] := by
  unfold evaluateSkills
  rw [h]
  simp [List.foldlM, EVALUATION_CRITERIA, insertRating]
  rfl

/-- The criteria rater gives the same value whatever the (unused) criteria
name is. -/
lemma rateCriteria_name_irrelevant (c1 c2 : String) (qa : List QAPair) :
    rateCriteriaFromResponses c1 qa = rateCriteriaFromResponses c2 qa := rfl

/-- For roles without key skills all six criteria carry the same rating,
so the overall score is that rating rounded to one decimal. -/
lemma overall_no_skills_aux (role : Role) (qa : List QAPair) (s : Option String)
    (h : role.key_skills = []) :
    (evaluateResponses role qa s).overall_score =
      pyRound1 (rateCriteriaFromResponses "Technical Skills" qa) := by
  have he := evaluateSkills_no_skills role qa h
  unfold evaluateResponses generateEvaluationReport
  rw [he]
  simp only [Except.bind, bind, Except.pure, pure]
  congr 1
  simp only [List.map_cons, List.map_nil, List.sum_cons, List.sum_nil,
    List.length_cons, List.length_nil, ne_eq, OfNat.ofNat_ne_zero,
    not_false_eq_true, if_true]
  rw [rateCriteria_name_irrelevant "Communication" "Technical Skills",
    rateCriteria_name_irrelevant "Problem Solving" "Technical Skills",
    rateCriteria_name_irrelevant "Experience Relevance" "Technical Skills",
    rateCriteria_name_irrelevant "Cultural Fit" "Technical Skills",
    rateCriteria_name_irrelevant "Leadership Potential" "Technical Skills"]
  rw [if_pos (by norm_num)]
  push_cast
  ring

/-- C1 (amended): each evaluation criterion receives one and the same
rating, computed from the average character length of the answers by
four-band thresholding with linear interpolation — not a per-answer score
in 1.5, 2.5, 3.5, 4.5, and word count plays no part; for a role with no
key skills, `overall_score` is exactly that common criterion rating
rounded to one decimal place (and with no answers it is 1.0, not 0). -/
theorem overallScore_no_skills (role : Role) (qa : List QAPair) (s : Option String)
    (h : role.key_skills = []) :
    (evaluateResponses role qa s).overall_score =
      pyRound1 (rateCriteriaFromResponses "Technical Skills" qa) :=
  overall_no_skills_aux role qa s h

/-- Witness for C1 (amended) at the role `X` and the single 30-character
answer. -/
theorem overallScore_no_skills_witness :
    roleNoSkills.key_skills = [] ∧
    (evaluateResponses roleNoSkills shortAnswerPairs none).overall_score =
      pyRound1 (rateCriteriaFromResponses "Technical Skills" shortAnswerPairs) :=
  ⟨rfl, overallScore_no_skills roleNoSkills shortAnswerPairs none rfl⟩

/-- Counterexample for C1 as stated: a single 30-character answer yields an
overall score of 1.6, which is not the one-decimal rounding of any
per-answer score drawn from 1.5, 2.5, 3.5, 4.5 (for a single answer the
claimed mean is the per-answer score itself); and with no answers the
overall score is 1.0, not 0. -/
theorem evaluator_per_answer_counterexample :
    (evaluateResponses roleNoSkills shortAnswerPairs none).overall_score = 8/5 ∧
    (∀ s0 ∈ [(3:ℚ)/2, 5/2, 7/2, 9/2], pyRound1 s0 ≠ 8/5) ∧
    (evaluateResponses roleNoSkills [] none).overall_score = 1 ∧
    (evaluateResponses roleNoSkills [] none).overall_score ≠ 0 := by
  have h30 := overall_no_skills_aux roleNoSkills shortAnswerPairs none rfl
  have h0 := overall_no_skills_aux roleNoSkills [] none rfl
  have hlen : ((String.mk (List.replicate 30 'a')).length : ℚ) = 30 := by
    norm_num [show (String.mk (List.replicate 30 'a')).length = 30 from rfl]
  have hr30 : rateCriteriaFromResponses "Technical Skills" shortAnswerPairs = 8/5 := by
    unfold rateCriteriaFromResponses shortAnswerPairs
    norm_num [hlen]
  have hr0 : rateCriteriaFromResponses "Technical Skills" [] = 1 := by
    norm_num [rateCriteriaFromResponses]
  refine ⟨?_, ?_, ?_, ?_⟩
  · rw [h30, hr30]
    norm_num [pyRound1, pyRound]
  · intro s0 hs0
    simp only [List.mem_cons, List.not_mem_nil, or_false] at hs0
    rcases hs0 with rfl | rfl | rfl | rfl <;> norm_num [pyRound1, pyRound]
  · rw [h0, hr0]
    norm_num [pyRound1, pyRound]
  · rw [h0, hr0]
    norm_num [pyRound1, pyRound]

/-!  The per-skill rater. -/

/-- The contribution of one answer to a skill score, written declaratively:
`min(0.3 * keyword_count, 1.0)` when some keyword occurs in the
lower-cased answer, plus `0.2` for answers over 100 characters. -/
def skillAnswerContribution (keywords : List String) (qa : QAPair) : ℚ :=
  (if 0 < (keywords.filter (fun k => containsSub k (lowerStr qa.answer))).length then
    min (((keywords.filter (fun k => containsSub k (lowerStr qa.answer))).length : ℚ) * (3/10)) 1
  else 0) +
  (if qa.answer.length > 100 then 1/5 else 0)

/-- One loop iteration adds exactly the declarative contribution. -/
lemma rateSkillStep_eq (keywords : List String) (a : ℚ) (qa : QAPair) :
    rateSkillStep keywords a qa = a + skillAnswerContribution keywords qa := by
  unfold rateSkillStep skillAnswerContribution
  dsimp only
  split_ifs <;> ring

/-- The scoring loop computes the sum of the per-answer contributions. -/
lemma foldl_rateSkillStep (keywords : List String) (l : List QAPair) :
    ∀ a : ℚ, l.foldl (rateSkillStep keywords) a =
      a + (l.map (skillAnswerContribution keywords)).sum := by
  induction l with
  | nil => intro a; simp
  | cons p l ih =>
    intro a
    simp only [List.foldl_cons, List.map_cons, List.sum_cons, ih, rateSkillStep_eq]
    ring

/-- Closed form of the per-skill rater on a non-empty answer list. -/
lemma rateSkill_closed_form_aux (skill : String) (qa_pairs : List QAPair)
    (h : qa_pairs ≠ []) :
    rateSkillFromResponses skill qa_pairs = Except.ok (min 5 (max 1
      (1 + ((qa_pairs.map (skillAnswerContribution (skillKeywords skill))).sum /
        (qa_pairs.length : ℚ)) * 4))) := by
  have hlen : qa_pairs.length ≠ 0 := by
    simpa [List.length_eq_zero] using h
  unfold rateSkillFromResponses
  dsimp only
  rw [foldl_rateSkillStep, zero_add, if_neg hlen]

/-- C3 (amended): the rating of a required skill does not involve
`overall_score` at all; it is `clamp(1 + 4 * (sum of per-answer
contributions) / n, 1.0, 5.0)` where each answer contributes
`min(0.3 * matched-keyword-count, 1.0)` when any keyword of the skill
occurs in the lower-cased answer, plus `0.2` when the answer exceeds 100
characters. -/
theorem rateSkill_closed_form (skill : String) (qa_pairs : List QAPair)
    (h : qa_pairs ≠ []) :
    rateSkillFromResponses skill qa_pairs = Except.ok (min 5 (max 1
      (1 + ((qa_pairs.map (skillAnswerContribution (skillKeywords skill))).sum /
        (qa_pairs.length : ℚ)) * 4))) :=
  rateSkill_closed_form_aux skill qa_pairs h

/-- Witness for C3 (amended) at skill `Python` and the single answer
`python`. -/
theorem rateSkill_closed_form_witness :
    pythonAnswerPairs ≠ [] ∧
    rateSkillFromResponses "Python" pythonAnswerPairs = Except.ok (min 5 (max 1
      (1 + ((pythonAnswerPairs.map (skillAnswerContribution (skillKeywords "Python"))).sum /
        (pythonAnswerPairs.length : ℚ)) * 4))) :=
  ⟨by decide, rateSkill_closed_form "Python" pythonAnswerPairs (by decide)⟩

/-- The skill rating as the specification sentence would compute it:
`overall_score` adjusted by half a point according to a case-insensitive
substring match of the skill keyword in any answer, clamped to
`[1.0, 5.0]`. -/
def specSkillRating (overall_score : ℚ) (skill : String) (qa_pairs : List QAPair) : ℚ :=
  min 5 (max 1 (overall_score +
    (if qa_pairs.any (fun qa => containsSub (lowerStr skill) (lowerStr qa.answer)) then
      1/2
    else -(1/2))))

/-- Number of Python keywords occurring in the lower-cased answer
`python`. -/
lemma python_keyword_count :
    ((skillKeywords "Python").filter (fun k =>
      containsSub k (lowerStr "python"))).length = 1 := rfl

/-- Concrete value of the skill rater on the sample input. -/
lemma rateSkill_python_value :
    rateSkillFromResponses "Python" pythonAnswerPairs = Except.ok (11/5) := by
  rw [rateSkill_closed_form_aux "Python" pythonAnswerPairs (by decide)]
  have hc : skillAnswerContribution (skillKeywords "Python")
      { question := "q", answer := "python", duration := 0 } = 3/10 := by
    unfold skillAnswerContribution
    rw [show ("python" : String).length = 6 from rfl]
    norm_num [python_keyword_count]
  congr 1
  rw [show pythonAnswerPairs.map (skillAnswerContribution (skillKeywords "Python")) =
    [skillAnswerContribution (skillKeywords "Python")
      { question := "q", answer := "python", duration := 0 }] from rfl, hc]
  rw [show (pythonAnswerPairs.length : ℚ) = 1 by norm_num [pythonAnswerPairs]]
  norm_num

/-- Concrete value of the criteria rater on the sample input. -/
lemma rateCriteria_python_value :
    rateCriteriaFromResponses "Technical Skills" pythonAnswerPairs = 28/25 := by
  unfold rateCriteriaFromResponses pythonAnswerPairs
  norm_num [show ("python" : String).length = 6 from rfl]

/-- Concrete skill-rating table on the sample input. -/
lemma evaluateSkills_python_value :
    evaluateSkills rolePython pythonAnswerPairs = Except.ok
      [("Python", 11/5), ("Technical Skills", 28/25), ("Communication", 28/25),
       ("Problem Solving", 28/25), ("Experience Relevance", 28/25),
       ("Cultural Fit", 28/25), ("Leadership Potential", 28/25)] := by
  have h1 : rateCriteriaFromResponses "Communication" pythonAnswerPairs = 28/25 :=
    rateCriteria_python_value
  have h2 : rateCriteriaFromResponses "Problem Solving" pythonAnswerPairs = 28/25 :=
    rateCriteria_python_value
  have h3 : rateCriteriaFromResponses "Experience Relevance" pythonAnswerPairs = 28/25 :=
    rateCriteria_python_value
  have h4 : rateCriteriaFromResponses "Cultural Fit" pythonAnswerPairs = 28/25 :=
    rateCriteria_python_value
  have h5 : rateCriteriaFromResponses "Leadership Potential" pythonAnswerPairs = 28/25 :=
    rateCriteria_python_value
  unfold evaluateSkills
  rw [show rolePython.key_skills = ["Python"] from rfl]
  simp [List.foldlM, rateSkill_python_value, EVALUATION_CRITERIA, insertRating,
    rateCriteria_python_value, h1, h2, h3, h4, h5]

/-- Counterexample for C3 as stated: for the role requiring `Python` and
the single answer `python`, the code rates the skill 2.2, while adjusting
the reported overall score 1.3 (or its unrounded value 223/175) by plus or
minus one half and clamping yields 1.8 or 621/350 — never 2.2. -/
theorem skill_rating_counterexample :
    List.lookup "Python" (evaluateResponses rolePython pythonAnswerPairs none).skill_ratings =
      some (11/5) ∧
    (evaluateResponses rolePython pythonAnswerPairs none).overall_score = 13/10 ∧
    specSkillRating (13/10) "Python" pythonAnswerPairs = 9/5 ∧
    specSkillRating (223/175) "Python" pythonAnswerPairs = 621/350 ∧
    ((11:ℚ)/5) ≠ 9/5 ∧ ((11:ℚ)/5) ≠ 621/350 := by
  have hev : (evaluateResponses rolePython pythonAnswerPairs none).skill_ratings =
      [("Python", 11/5), ("Technical Skills", 28/25), ("Communication", 28/25),
       ("Problem Solving", 28/25), ("Experience Relevance", 28/25),
       ("Cultural Fit", 28/25), ("Leadership Potential", 28/25)] := by
    unfold evaluateResponses generateEvaluationReport
    rw [evaluateSkills_python_value]
    rfl
  have hov : (evaluateResponses rolePython pythonAnswerPairs none).overall_score =
      pyRound1 ((11/5 + (28/25 + (28/25 + (28/25 + (28/25 + (28/25 + (28/25 + 0))))))) / 7) := by
    unfold evaluateResponses generateEvaluationReport
    rw [evaluateSkills_python_value]
    simp only [Except.bind, bind, Except.pure, pure]
    norm_num
  have hmatch : pythonAnswerPairs.any (fun qa =>
      containsSub (lowerStr "Python") (lowerStr qa.answer)) = true := rfl
  refine ⟨?_, ?_, ?_, ?_, by norm_num, by norm_num⟩
  · rw [hev]
    rfl
  · rw [hov]
    norm_num [pyRound1, pyRound]
  · unfold specSkillRating
    rw [hmatch]
    norm_num
  · unfold specSkillRating
    rw [hmatch]
    norm_num

/-!  Range bounds of the ratings. -/

/-- The criteria rater always lands in `[1, 5]`. -/
lemma rateCriteria_bounds (c : String) (qa_pairs : List QAPair) :
    1 ≤ rateCriteriaFromResponses c qa_pairs ∧ rateCriteriaFromResponses c qa_pairs ≤ 5 := by
  unfold rateCriteriaFromResponses
  dsimp only
  set total : ℚ := (qa_pairs.map (fun qa => (qa.answer.length : ℚ))).sum with htotal
  have htot : 0 ≤ total := by
    rw [htotal]
    apply List.sum_nonneg
    intro x hx
    rw [List.mem_map] at hx
    obtain ⟨qa, _, rfl⟩ := hx
    positivity
  set avg : ℚ := if qa_pairs.length ≠ 0 then total / (qa_pairs.length : ℚ) else 0 with havg
  have havg0 : 0 ≤ avg := by
    rw [havg]
    split
    · positivity
    · norm_num
  split_ifs with h1 h2 h3
  · have hm1 : (200 : ℚ) ≤ min avg 500 := le_min (le_of_lt h1) (by norm_num)
    have hm2 : min avg 500 ≤ 500 := min_le_right _ _
    have hn : (0:ℚ) ≤ (min avg 500 - 200) / 300 := div_nonneg (by linarith) (by norm_num)
    have hd : (min avg 500 - 200) / 300 ≤ 1 := by
      rw [div_le_one (by norm_num)]
      linarith
    constructor <;> linarith
  · have hn : (0:ℚ) ≤ (avg - 100) / 100 := div_nonneg (by linarith) (by norm_num)
    have hd : (avg - 100) / 100 ≤ 1 := by
      rw [div_le_one (by norm_num)]
      linarith
    constructor <;> linarith
  · have hn : (0:ℚ) ≤ (avg - 50) / 50 := div_nonneg (by linarith) (by norm_num)
    have hd : (avg - 50) / 50 ≤ 1 := by
      rw [div_le_one (by norm_num)]
      linarith
    constructor <;> linarith
  · have hn : (0:ℚ) ≤ avg / 50 := div_nonneg havg0 (by norm_num)
    have hd : avg / 50 ≤ 1 := by
      rw [div_le_one (by norm_num)]
      linarith
    constructor <;> linarith

/-- A successful skill rating is clamped into `[1, 5]`. -/
lemma rateSkill_ok_bounds {skill : String} {qa_pairs : List QAPair} {r : ℚ}
    (h : rateSkillFromResponses skill qa_pairs = Except.ok r) :
    1 ≤ r ∧ r ≤ 5 := by
  unfold rateSkillFromResponses at h
  dsimp only at h
  split at h
  · exact absurd h (by simp)
  · rw [Except.ok.injEq] at h
    subst h
    constructor
    · exact le_min (by norm_num) (le_max_left _ _)
    · exact min_le_left _ _

/-- `insertRating` preserves a predicate on the stored values. -/
lemma insertRating_val (P : ℚ → Prop) {m : List (String × ℚ)} {k : String} {v : ℚ}
    (hm : ∀ p ∈ m, P p.2) (hv : P v) :
    ∀ p ∈ insertRating m k v, P p.2 := by
  intro p hp
  unfold insertRating at hp
  split at hp
  · rw [List.mem_map] at hp
    obtain ⟨q, hq, hpq⟩ := hp
    by_cases hqk : q.1 = k
    · rw [if_pos hqk] at hpq
      subst hpq
      exact hv
    · rw [if_neg hqk] at hpq
      subst hpq
      exact hm q hq
  · rw [List.mem_append] at hp
    rcases hp with hp | hp
    · exact hm p hp
    · rw [List.mem_singleton] at hp
      subst hp
      exact hv

/-- Invariant preservation through a monadic left fold over `Except`. -/
lemma foldlM_except_inv {α β : Type} (P : β → Prop) (f : β → α → Except Unit β)
    (hf : ∀ b a b2, P b → f b a = Except.ok b2 → P b2) :
    ∀ (l : List α) (b b2 : β), P b → l.foldlM f b = Except.ok b2 → P b2 := by
  intro l
  induction l with
  | nil =>
    intro b b2 hb h
    simp only [List.foldlM_nil] at h
    rw [show (pure b : Except Unit β) = Except.ok b from rfl, Except.ok.injEq] at h
    subst h
    exact hb
  | cons a l ih =>
    intro b b2 hb h
    rw [List.foldlM_cons] at h
    cases hfa : f b a with
    | error e =>
      rw [hfa] at h
      exact absurd h (by simp [Except.bind, bind])
    | ok b1 =>
      rw [hfa] at h
      rw [show ((Except.ok b1 : Except Unit β) >>= fun b => List.foldlM f b l) =
        List.foldlM f b1 l from rfl] at h
      exact ih b1 b2 (hf b a b1 hb hfa) h

/-- The criteria pass of `_evaluate_skills` preserves a value predicate
satisfied by every criteria rating. -/
lemma foldl_criteria_val (P : ℚ → Prop) (qa_pairs : List QAPair)
    (hcrit : ∀ c, P (rateCriteriaFromResponses c qa_pairs)) :
    ∀ (cs : List String) (m : List (String × ℚ)), (∀ p ∈ m, P p.2) →
      ∀ p ∈ cs.foldl (fun m criteria =>
        if m.any (fun p => p.1 = criteria) then m
        else insertRating m criteria (rateCriteriaFromResponses criteria qa_pairs)) m,
      P p.2 := by
  intro cs
  induction cs with
  | nil =>
    intro m hm p hp
    exact hm p hp
  | cons c cs ih =>
    intro m hm p hp
    rw [List.foldl_cons] at hp
    refine ih _ ?_ p hp
    split
    · exact hm
    · exact insertRating_val P hm (hcrit c)

/-- The skill pass of `_evaluate_skills` keeps every stored value inside
`[1, 5]`. -/
lemma foldlM_skills_bounds {qa_pairs : List QAPair} (ks : List String)
    {ws : List (String × ℚ)}
    (hws : ks.foldlM (fun m skill => do
      let rating ← rateSkillFromResponses skill qa_pairs
      pure (insertRating m skill rating)) ([] : List (String × ℚ)) = Except.ok ws) :
    ∀ p ∈ ws, 1 ≤ p.2 ∧ p.2 ≤ 5 := by
  refine foldlM_except_inv (fun m => ∀ p ∈ m, 1 ≤ p.2 ∧ p.2 ≤ 5) _ ?_
    ks [] ws (by intro p hp; exact absurd hp (List.not_mem_nil p)) hws
  intro m skill m2 hm hstep
  cases hr : rateSkillFromResponses skill qa_pairs with
  | error e =>
    rw [show ((do
        let rating ← rateSkillFromResponses skill qa_pairs
        pure (insertRating m skill rating)) : Except Unit (List (String × ℚ))) =
      (rateSkillFromResponses skill qa_pairs >>=
        fun rating => pure (insertRating m skill rating)) from rfl, hr] at hstep
    exact absurd hstep (by simp [Except.bind, bind])
  | ok r =>
    rw [show ((do
        let rating ← rateSkillFromResponses skill qa_pairs
        pure (insertRating m skill rating)) : Except Unit (List (String × ℚ))) =
      (rateSkillFromResponses skill qa_pairs >>=
        fun rating => pure (insertRating m skill rating)) from rfl, hr] at hstep
    have hstep2 := Except.ok.inj hstep
    subst hstep2
    exact insertRating_val (fun r => 1 ≤ r ∧ r ≤ 5) hm (rateSkill_ok_bounds hr)

/-- An evaluation report that came out `ok` carries exactly the ratings of
`_evaluate_skills`. -/
lemma generateEvaluationReport_ok_ratings {role : Role} {qa_pairs : List QAPair}
    {s : Option String} {report : Evaluation}
    (h : generateEvaluationReport role qa_pairs s = Except.ok report) :
    evaluateSkills role qa_pairs = Except.ok report.skill_ratings := by
  unfold generateEvaluationReport at h
  cases hsk : evaluateSkills role qa_pairs with
  | error e =>
    rw [hsk] at h
    exact absurd h (by simp [Except.bind, bind])
  | ok ratings =>
    rw [hsk] at h
    have h2 := Except.ok.inj h
    rw [← h2]

/-- Every rating produced by `_evaluate_skills` lies in `[1, 5]`. -/
lemma evaluateSkills_bounds {role : Role} {qa_pairs : List QAPair}
    {ratings : List (String × ℚ)}
    (h : evaluateSkills role qa_pairs = Except.ok ratings) :
    ∀ p ∈ ratings, 1 ≤ p.2 ∧ p.2 ≤ 5 := by
  unfold evaluateSkills at h
  cases hws : List.foldlM (fun m skill => do
      let rating ← rateSkillFromResponses skill qa_pairs
      pure (insertRating m skill rating)) ([] : List (String × ℚ)) role.key_skills with
  | error e =>
    rw [hws] at h
    exact absurd h (by simp [Except.bind, bind])
  | ok ws =>
    rw [hws] at h
    have h2 := Except.ok.inj h
    rw [← h2]
    exact foldl_criteria_val (fun r => 1 ≤ r ∧ r ≤ 5) qa_pairs
      (fun c => rateCriteria_bounds c qa_pairs) EVALUATION_CRITERIA ws
      (foldlM_skills_bounds role.key_skills hws)

/-- The fallback ratings (every key skill mapped to 3.0) lie in `[1, 5]`. -/
lemma fallback_ratings_bounds (role : Role) :
    ∀ p ∈ role.key_skills.foldl (fun m skill => insertRating m skill 3)
      ([] : List (String × ℚ)), 1 ≤ p.2 ∧ p.2 ≤ 5 := by
  have hgen : ∀ (ks : List String) (m : List (String × ℚ)),
      (∀ p ∈ m, 1 ≤ p.2 ∧ p.2 ≤ 5) →
      ∀ p ∈ ks.foldl (fun m skill => insertRating m skill 3) m, 1 ≤ p.2 ∧ p.2 ≤ 5 := by
    intro ks
    induction ks with
    | nil =>
      intro m hm p hp
      exact hm p hp
    | cons k ks ih =>
      intro m hm p hp
      rw [List.foldl_cons] at hp
      exact ih _ (insertRating_val (fun r => 1 ≤ r ∧ r ≤ 5) hm (by norm_num)) p hp
  exact hgen role.key_skills [] (by intro p hp; exact absurd hp (List.not_mem_nil p))

/-- C6: every skill or criteria rating in the evaluation returned by
`evaluate_responses` — on the normal path and on the fallback path alike —
lies within `[1.0, 5.0]`. -/
theorem skill_ratings_in_range (role : Role) (qa_pairs : List QAPair)
    (s : Option String) :
    ∀ p ∈ (evaluateResponses role qa_pairs s).skill_ratings, 1 ≤ p.2 ∧ p.2 ≤ 5 := by
  intro p hp
  unfold evaluateResponses at hp
  cases hrep : generateEvaluationReport role qa_pairs s with
  | ok report =>
    rw [hrep] at hp
    have hp2 : p ∈ report.skill_ratings := hp
    exact evaluateSkills_bounds (generateEvaluationReport_ok_ratings hrep) p hp2
  | error e =>
    rw [hrep] at hp
    have hp2 : p ∈ (getFallbackEvaluation role qa_pairs).skill_ratings := hp
    unfold getFallbackEvaluation at hp2
    exact fallback_ratings_bounds role p hp2

/-- The skill-less evaluation of an empty answer list, evaluated. -/
lemma evaluateResponses_no_skills_nil_ratings :
    (evaluateResponses roleNoSkills [] none).skill_ratings =
      [("Technical Skills", 1), ("Communication", 1), ("Problem Solving", 1),
       ("Experience Relevance", 1), ("Cultural Fit", 1), ("Leadership Potential", 1)] := by
  have h1 : rateCriteriaFromResponses "Technical Skills" ([] : List QAPair) = 1 := by
    norm_num [rateCriteriaFromResponses]
  have h2 : rateCriteriaFromResponses "Communication" ([] : List QAPair) = 1 := h1
  have h3 : rateCriteriaFromResponses "Problem Solving" ([] : List QAPair) = 1 := h1
  have h4 : rateCriteriaFromResponses "Experience Relevance" ([] : List QAPair) = 1 := h1
  have h5 : rateCriteriaFromResponses "Cultural Fit" ([] : List QAPair) = 1 := h1
  have h6 : rateCriteriaFromResponses "Leadership Potential" ([] : List QAPair) = 1 := h1
  unfold evaluateResponses generateEvaluationReport
  rw [evaluateSkills_no_skills roleNoSkills [] rfl]
  simp only [Except.bind, bind, Except.pure, pure, h1, h2, h3, h4, h5, h6]

/-- Witness for C6 at the skill-less role with no answers, whose six
criteria are all rated 1.0. -/
theorem skill_ratings_in_range_witness :
    (("Technical Skills", (1:ℚ)) ∈ (evaluateResponses roleNoSkills [] none).skill_ratings) ∧
    (1 ≤ (("Technical Skills", (1:ℚ))).2 ∧ (("Technical Skills", (1:ℚ))).2 ≤ 5) :=
  ⟨by
    rw [evaluateResponses_no_skills_nil_ratings]
    exact List.mem_cons_self _ _,
   skill_ratings_in_range roleNoSkills [] none ("Technical Skills", (1:ℚ)) (by
    rw [evaluateResponses_no_skills_nil_ratings]
    exact List.mem_cons_self _ _)⟩

/-!  The fallback evaluation. -/

/-- After `insertRating`, the inserted key is present. -/
lemma keys_insertRating_self (m : List (String × ℚ)) (k : String) (v : ℚ) :
    k ∈ (insertRating m k v).map Prod.fst := by
  unfold insertRating
  split
  · rename_i hany
    rw [List.any_eq_true] at hany
    obtain ⟨q, hq, hqk⟩ := hany
    rw [decide_eq_true_eq] at hqk
    rw [List.mem_map]
    refine ⟨(q.1, v), ?_, hqk⟩
    rw [List.mem_map]
    exact ⟨q, hq, by rw [if_pos hqk]⟩
  · rw [List.map_append, List.mem_append]
    right
    simp

/-- `insertRating` keeps every key that was already present. -/
lemma keys_insertRating_mono {m : List (String × ℚ)} (k : String) (v : ℚ)
    {k2 : String} (h : k2 ∈ m.map Prod.fst) :
    k2 ∈ (insertRating m k v).map Prod.fst := by
  unfold insertRating
  rw [List.mem_map] at h
  obtain ⟨q, hq, hqk⟩ := h
  split
  · rw [List.mem_map]
    by_cases hk : q.1 = k
    · exact ⟨(q.1, v), by rw [List.mem_map]; exact ⟨q, hq, by rw [if_pos hk]⟩, hqk⟩
    · exact ⟨q, by rw [List.mem_map]; exact ⟨q, hq, by rw [if_neg hk]⟩, hqk⟩
  · rw [List.map_append, List.mem_append]
    left
    rw [List.mem_map]
    exact ⟨q, hq, hqk⟩

/-- After folding the fallback insertions, every listed key skill has an
entry. -/
lemma keys_foldl_insert (v : ℚ) :
    ∀ (ks : List String) (m : List (String × ℚ)) (sk : String),
      sk ∈ ks ∨ sk ∈ m.map Prod.fst →
      sk ∈ (ks.foldl (fun m skill => insertRating m skill v) m).map Prod.fst := by
  intro ks
  induction ks with
  | nil =>
    intro m sk h
    rcases h with h | h
    · exact absurd h (List.not_mem_nil sk)
    · simpa using h
  | cons k ks ih =>
    intro m sk h
    rw [List.foldl_cons]
    rcases h with h | h
    · rw [List.mem_cons] at h
      rcases h with rfl | h
      · exact ih _ sk (Or.inr (keys_insertRating_self m sk v))
      · exact ih _ sk (Or.inl h)
    · exact ih _ sk (Or.inr (keys_insertRating_mono k v h))

/-- Every value stored by the fallback insertions is the inserted one. -/
lemma vals_foldl_insert (v : ℚ) :
    ∀ (ks : List String) (m : List (String × ℚ)), (∀ p ∈ m, p.2 = v) →
      ∀ p ∈ ks.foldl (fun m skill => insertRating m skill v) m, p.2 = v := by
  intro ks
  induction ks with
  | nil =>
    intro m hm p hp
    exact hm p hp
  | cons k ks ih =>
    intro m hm p hp
    rw [List.foldl_cons] at hp
    exact ih _ (insertRating_val (fun r => r = v) hm rfl) p hp

/-- Looking up a present key in a constant-valued table gives that value. -/
lemma lookup_of_all {m : List (String × ℚ)} {v : ℚ} {k : String}
    (hall : ∀ p ∈ m, p.2 = v) (hk : k ∈ m.map Prod.fst) :
    m.lookup k = some v := by
  induction m with
  | nil => simp at hk
  | cons p rest ih =>
    obtain ⟨pk, pv⟩ := p
    rw [List.map_cons, List.mem_cons] at hk
    by_cases hbeq : k = pk
    · have hv : pv = v := hall (pk, pv) (List.mem_cons_self _ _)
      subst hbeq
      subst hv
      simp [List.lookup]
    · have hk2 : k ∈ rest.map Prod.fst := by
        rcases hk with hk | hk
        · exact absurd hk hbeq
        · exact hk
      have hbf : (k == pk) = false := by
        rw [beq_eq_false_iff_ne]
        exact hbeq
      have := ih (fun q hq => hall q (List.mem_cons_of_mem _ hq)) hk2
      simpa [List.lookup, hbf] using this

/-- C4: whenever report generation fails internally, `evaluate_responses`
returns the fixed fallback evaluation — overall score 3.0, every key skill
of the role rated 3.0, generic recommendation text — instead of
propagating the exception, and `_complete_interview` still moves the
wizard to the `interview_complete` step. -/
theorem evaluateResponses_fallback (role : Role) (qa_pairs : List QAPair)
    (s : Option String)
    (h : generateEvaluationReport role qa_pairs s = Except.error ()) :
    evaluateResponses role qa_pairs s = getFallbackEvaluation role qa_pairs ∧
    (evaluateResponses role qa_pairs s).overall_score = 3 ∧
    (∀ sk ∈ role.key_skills,
      (evaluateResponses role qa_pairs s).skill_ratings.lookup sk = some 3) ∧
    (evaluateResponses role qa_pairs s).recommendations =
      ["Manual evaluation required", "Review responses manually"] ∧
    (∀ saveOk, (completeInterview role qa_pairs s saveOk).1 =
      Step.interview_complete) := by
  have he : evaluateResponses role qa_pairs s = getFallbackEvaluation role qa_pairs := by
    unfold evaluateResponses
    rw [h]
  refine ⟨he, by rw [he]; rfl, ?_, by rw [he]; rfl, ?_⟩
  · intro sk hsk
    rw [he]
    apply lookup_of_all
    · exact vals_foldl_insert 3 role.key_skills []
        (by intro p hp; exact absurd hp (List.not_mem_nil p))
    · exact keys_foldl_insert 3 role.key_skills [] sk (Or.inl hsk)
  · intro saveOk
    cases saveOk <;> rfl

/-- Witness for C4 at the role requiring `Python` with no answers, where
the per-skill rater divides by zero. -/
theorem evaluateResponses_fallback_witness :
    (generateEvaluationReport rolePython [] none = Except.error ()) ∧
    (evaluateResponses rolePython [] none = getFallbackEvaluation rolePython [] ∧
     (evaluateResponses rolePython [] none).overall_score = 3 ∧
     (∀ sk ∈ rolePython.key_skills,
       (evaluateResponses rolePython [] none).skill_ratings.lookup sk = some 3) ∧
     (evaluateResponses rolePython [] none).recommendations =
       ["Manual evaluation required", "Review responses manually"] ∧
     (∀ saveOk, (completeInterview rolePython [] none saveOk).1 =
       Step.interview_complete)) :=
  ⟨rfl, evaluateResponses_fallback rolePython [] none rfl⟩

/-- C9: with a non-empty key-skill list and no answers, report generation
fails (division by the number of responses), so `evaluate_responses`
returns the fallback — overall score 3.0 and every key skill rated 3.0 —
and the caller never sees an overall score of 0 for an empty answer
list. -/
theorem evaluateResponses_empty_answers (role : Role) (s : Option String)
    (h : role.key_skills ≠ []) :
    evaluateResponses role [] s = getFallbackEvaluation role [] ∧
    (evaluateResponses role [] s).overall_score = 3 ∧
    (∀ sk ∈ role.key_skills,
      (evaluateResponses role [] s).skill_ratings.lookup sk = some 3) ∧
    (evaluateResponses role [] s).overall_score ≠ 0 := by
  obtain ⟨k, ks, hk⟩ : ∃ k ks, role.key_skills = k :: ks := by
    cases hck : role.key_skills with
    | nil => exact absurd hck h
    | cons k ks => exact ⟨k, ks, rfl⟩
  have herr : generateEvaluationReport role [] s = Except.error () := by
    unfold generateEvaluationReport evaluateSkills
    rw [hk]
    rfl
  have he : evaluateResponses role [] s = getFallbackEvaluation role [] := by
    unfold evaluateResponses
    rw [herr]
  refine ⟨he, by rw [he]; rfl, ?_, by rw [he]; norm_num [getFallbackEvaluation]⟩
  intro sk hsk
  rw [he]
  apply lookup_of_all
  · exact vals_foldl_insert 3 role.key_skills []
      (by intro p hp; exact absurd hp (List.not_mem_nil p))
  · exact keys_foldl_insert 3 role.key_skills [] sk (Or.inl hsk)

/-- Witness for C9 at the role requiring `Python`. -/
theorem evaluateResponses_empty_answers_witness :
    (rolePython.key_skills ≠ []) ∧
    (evaluateResponses rolePython [] none = getFallbackEvaluation rolePython [] ∧
     (evaluateResponses rolePython [] none).overall_score = 3 ∧
     (∀ sk ∈ rolePython.key_skills,
       (evaluateResponses rolePython [] none).skill_ratings.lookup sk = some 3) ∧
     (evaluateResponses rolePython [] none).overall_score ≠ 0) :=
  ⟨by decide, evaluateResponses_empty_answers rolePython none (by decide)⟩

/-!  The recommendation list. -/

/-- The score-tier recommendation: thresholds at 4.0 and 3.0, as the
specification describes it. -/
def scoreTierRecommendation (overall_score : ℚ) : String :=
  if overall_score ≥ 4 then "Strong candidate - Recommend for next round"
  else if overall_score ≥ 3 then "Good candidate - Consider for next round with reservations"
  else "May not be the right fit for this role"

/-- The skills rated at least 4.0, in table order. -/
def strongSkills (skill_ratings : List (String × ℚ)) : List String :=
  (skill_ratings.filter (fun p => p.2 ≥ 4)).map Prod.fst

/-- The skills rated below 2.5, in table order. -/
def weakSkills (skill_ratings : List (String × ℚ)) : List String :=
  (skill_ratings.filter (fun p => p.2 < 5/2)).map Prod.fst

/-- C7: the recommendation list is ordered exactly as the specification
says: first the single score-tier recommendation obtained by thresholding
`overall_score` at 4.0 then 3.0; then, when some skill is rated at least
4.0, one sentence naming at most the first three such skills; then, when
some skill is rated below 2.5, one sentence naming at most the first three
such skills as areas for development. -/
theorem generateRecommendations_structure (overall_score : ℚ)
    (skill_ratings : List (String × ℚ)) :
    generateRecommendations overall_score skill_ratings =
      [scoreTierRecommendation overall_score] ++
      (if strongSkills skill_ratings = [] then []
       else ["Key strengths: " ++ joinSep ", " ((strongSkills skill_ratings).take 3)]) ++
      (if weakSkills skill_ratings = [] then []
       else ["Areas for development: " ++
         joinSep ", " ((weakSkills skill_ratings).take 3)]) ∧
    ((∃ p ∈ skill_ratings, p.2 ≥ 4) ↔ strongSkills skill_ratings ≠ []) ∧
    ((∃ p ∈ skill_ratings, p.2 < 5/2) ↔ weakSkills skill_ratings ≠ []) := by
  refine ⟨?_, ?_, ?_⟩
  · unfold generateRecommendations scoreTierRecommendation strongSkills weakSkills
    dsimp only
    by_cases hs : (skill_ratings.filter (fun p => p.2 ≥ 4)).map Prod.fst = [] <;>
      by_cases hw : (skill_ratings.filter (fun p => p.2 < 5/2)).map Prod.fst = [] <;>
      simp [hs, hw] <;>
      split_ifs <;>
      simp
  · unfold strongSkills
    rw [ne_eq, List.map_eq_nil_iff, List.filter_eq_nil_iff]
    constructor
    · rintro ⟨p, hp, hge⟩ hall
      exact absurd hge (by simpa using hall p hp)
    · intro hnall
      rcases (by simpa using hnall : ∃ a b, (a, b) ∈ skill_ratings ∧ 4 ≤ b) with
        ⟨a, b, hmem, hval⟩
      exact ⟨(a, b), hmem, hval⟩
  · unfold weakSkills
    rw [ne_eq, List.map_eq_nil_iff, List.filter_eq_nil_iff]
    constructor
    · rintro ⟨p, hp, hge⟩ hall
      exact absurd hge (by simpa using hall p hp)
    · intro hnall
      rcases (by simpa using hnall : ∃ a b, (a, b) ∈ skill_ratings ∧ b < 5/2) with
        ⟨a, b, hmem, hval⟩
      exact ⟨(a, b), hmem, hval⟩

/-- Witness for C7 at a two-entry rating table with one strength and one
weakness. -/
theorem generateRecommendations_structure_witness :
    generateRecommendations (7/2) [("A", 9/2), ("B", 2)] =
      [scoreTierRecommendation (7/2)] ++
      (if strongSkills [("A", 9/2), ("B", 2)] = [] then []
       else ["Key strengths: " ++
         joinSep ", " ((strongSkills [("A", 9/2), ("B", 2)]).take 3)]) ++
      (if weakSkills [("A", 9/2), ("B", 2)] = [] then []
       else ["Areas for development: " ++
         joinSep ", " ((weakSkills [("A", 9/2), ("B", 2)]).take 3)]) ∧
    ((∃ p ∈ [("A", (9:ℚ)/2), ("B", 2)], p.2 ≥ 4) ↔
      strongSkills [("A", 9/2), ("B", 2)] ≠ []) ∧
    ((∃ p ∈ [("A", (9:ℚ)/2), ("B", 2)], p.2 < 5/2) ↔
      weakSkills [("A", 9/2), ("B", 2)] ≠ []) :=
  generateRecommendations_structure (7/2) [("A", 9/2), ("B", 2)]

/-!  The interview-process navigation machine. -/

/-- Length of the answer list after a save: unchanged on overwrite, one
longer on append. -/
lemma writeAt_length (l : List QAPair) (i : ℕ) (p : QAPair) :
    (writeAt l i p).length = if i < l.length then l.length else l.length + 1 := by
  unfold writeAt
  split <;> simp

/-- Saving at a position up to the current length stores the pair
there. -/
lemma writeAt_getElem_self {l : List QAPair} {i : ℕ} (p : QAPair) (h : i ≤ l.length) :
    (writeAt l i p)[i]? = some p := by
  unfold writeAt
  split
  · rename_i hlt
    exact List.getElem?_set_self hlt
  · rename_i hge
    have hieq : i = l.length := by omega
    subst hieq
    rw [List.getElem?_append_right (le_refl _)]
    simp

/-- Saving at a position up to the current length leaves every other
position unchanged. -/
lemma writeAt_getElem_ne {l : List QAPair} {i j : ℕ} (p : QAPair) (h : i ≤ l.length)
    (hne : j ≠ i) : (writeAt l i p)[j]? = l[j]? := by
  unfold writeAt
  split
  · exact List.getElem?_set_ne (by omega)
  · rename_i hge
    have hieq : i = l.length := by omega
    by_cases hj : j < l.length
    · exact List.getElem?_append_left hj
    · have hl1 : l[j]? = none := List.getElem?_eq_none (by omega)
      have hl2 : (l ++ [p])[j]? = none := List.getElem?_eq_none (by simp; omega)
      rw [hl1, hl2]

/-- The inductive invariant of the navigation machine: the cursor never
passes the question count, and the stored answers never outnumber the
questions nor trail the cursor. -/
def sessionInv (questions : List String) (s : SessionState) : Prop :=
  s.current_question_index ≤ questions.length ∧
  s.current_question_index ≤ s.qa_pairs.length ∧
  s.qa_pairs.length ≤ questions.length

/-- Every navigation click preserves the invariant. -/
lemma stepSession_inv (questions : List String) (s : SessionState) (e : NavEvent)
    (h : sessionInv questions s) : sessionInv questions (stepSession questions s e) := by
  obtain ⟨h1, h2, h3⟩ := h
  unfold stepSession
  split
  · exact ⟨h1, h2, h3⟩
  · split
    · rename_i hlt
      cases e with
      | nextQuestion t d =>
        dsimp only
        split
        · exact ⟨h1, h2, h3⟩
        · split
          · refine ⟨?_, ?_, ?_⟩ <;> dsimp only <;>
              first
                | omega
                | (rw [writeAt_length]; split <;> omega)
          · refine ⟨?_, ?_, ?_⟩ <;> dsimp only <;>
              first
                | omega
                | (rw [writeAt_length]; split <;> omega)
      | previousQuestion t d =>
        dsimp only
        split
        · exact ⟨h1, h2, h3⟩
        · split
          · refine ⟨?_, ?_, ?_⟩ <;> dsimp only <;>
              first
                | omega
                | (rw [writeAt_length]; split <;> omega)
          · exact ⟨h1, h2, h3⟩
    · exact ⟨h1, h2, h3⟩

/-- C5 (amended): in every state reachable by navigation clicks from the
initial session state, `current_question_index` never exceeds the number
of questions, and the stored answer list is always at least
`current_question_index` long and at most `len(questions)` long — but
after a backward navigation its length can exceed `current_question_index`
(see the counterexample), so equality is not an invariant. -/
theorem session_index_invariant (questions : List String) (events : List NavEvent) :
    (runSession questions events).current_question_index ≤ questions.length ∧
    (runSession questions events).current_question_index ≤
      (runSession questions events).qa_pairs.length ∧
    (runSession questions events).qa_pairs.length ≤ questions.length := by
  have hrun : ∀ (evs : List NavEvent) (s : SessionState), sessionInv questions s →
      sessionInv questions (evs.foldl (stepSession questions) s) := by
    intro evs
    induction evs with
    | nil =>
      intro s hs
      exact hs
    | cons e evs ih =>
      intro s hs
      rw [List.foldl_cons]
      exact ih _ (stepSession_inv questions s e hs)
  exact hrun events initSession ⟨Nat.zero_le _, le_refl _, Nat.zero_le _⟩

/-- Counterexample for C5 as stated: after submitting two answers and
navigating back once, the current question (index 1) has a stored answer,
yet the answer list has length 3, not `current_question_index = 1` — the
backward click stores the in-progress transcript as well. -/
theorem session_answers_length_counterexample :
    runSession threeQuestions forwardBackTrace =
      { current_question_index := 1,
        qa_pairs := [{ question := "q0", answer := "a", duration := 0 },
                     { question := "q1", answer := "b", duration := 0 },
                     { question := "q2", answer := "c", duration := 0 }],
        interview_complete := false } ∧
    ((runSession threeQuestions forwardBackTrace).qa_pairs[
      (runSession threeQuestions forwardBackTrace).current_question_index]?).isSome = true ∧
    (runSession threeQuestions forwardBackTrace).qa_pairs.length ≠
      (runSession threeQuestions forwardBackTrace).current_question_index := by
  decide

/-- Advancing then retreating in one step each. -/
def advanceRetreat (questions : List String) (s : SessionState)
    (t1 t2 : String) (d1 d2 : ℚ) : SessionState :=
  stepSession questions (stepSession questions s (NavEvent.nextQuestion t1 d1))
    (NavEvent.previousQuestion t2 d2)

/-- C8 (amended): advancing (Next) and then retreating (Previous) restores
`current_question_index` and drops or duplicates no entry: every stored
pair at an index other than the two visited ones is untouched, while the
two visited indices hold exactly the just-submitted pairs
(overwrite-by-index replacement) — so the stored pairs are NOT left
unchanged whenever a submitted transcript differs from the stored one. -/
theorem advance_retreat_round_trip (questions : List String) (s : SessionState)
    (t1 t2 : String) (d1 d2 : ℚ)
    (hidx : s.current_question_index + 1 < questions.length)
    (hc : s.interview_complete = false)
    (ht1 : ¬ trimStr t1 = "") (ht2 : ¬ trimStr t2 = "")
    (hlen : s.current_question_index ≤ s.qa_pairs.length) :
    (advanceRetreat questions s t1 t2 d1 d2).current_question_index =
      s.current_question_index ∧
    (advanceRetreat questions s t1 t2 d1 d2).interview_complete = false ∧
    (∀ j, j ≠ s.current_question_index → j ≠ s.current_question_index + 1 →
      (advanceRetreat questions s t1 t2 d1 d2).qa_pairs[j]? = s.qa_pairs[j]?) ∧
    (advanceRetreat questions s t1 t2 d1 d2).qa_pairs[s.current_question_index]? =
      some { question := questions.get ⟨s.current_question_index, by omega⟩,
             answer := t1, duration := d1 } ∧
    (advanceRetreat questions s t1 t2 d1 d2).qa_pairs[s.current_question_index + 1]? =
      some { question := questions.get ⟨s.current_question_index + 1, hidx⟩,
             answer := t2, duration := d2 } := by
  have h0 : s.current_question_index < questions.length := by omega
  have hs1 : stepSession questions s (NavEvent.nextQuestion t1 d1) =
      { current_question_index := s.current_question_index + 1,
        qa_pairs := writeAt s.qa_pairs s.current_question_index
          { question := questions.get ⟨s.current_question_index, h0⟩,
            answer := t1, duration := d1 },
        interview_complete := false } := by
    unfold stepSession
    rw [if_neg (by rw [hc]; exact Bool.false_ne_true)]
    rw [dif_pos h0]
    dsimp only
    rw [if_neg ht1, if_pos (show s.current_question_index < questions.length - 1 by omega)]
  have hl1 : s.current_question_index + 1 ≤
      (writeAt s.qa_pairs s.current_question_index
        { question := questions.get ⟨s.current_question_index, h0⟩,
          answer := t1, duration := d1 }).length := by
    rw [writeAt_length]
    split <;> omega
  have hs2 : advanceRetreat questions s t1 t2 d1 d2 =
      { current_question_index := s.current_question_index,
        qa_pairs := writeAt (writeAt s.qa_pairs s.current_question_index
            { question := questions.get ⟨s.current_question_index, h0⟩,
              answer := t1, duration := d1 }) (s.current_question_index + 1)
          { question := questions.get ⟨s.current_question_index + 1, hidx⟩,
            answer := t2, duration := d2 },
        interview_complete := false } := by
    unfold advanceRetreat
    rw [hs1]
    unfold stepSession
    rw [if_neg Bool.false_ne_true]
    rw [dif_pos hidx]
    dsimp only
    rw [if_neg ht2, if_pos (by omega)]
    simp
  rw [hs2]
  dsimp only
  refine ⟨rfl, rfl, ?_, ?_, ?_⟩
  · intro j hj1 hj2
    rw [writeAt_getElem_ne _ hl1 hj2, writeAt_getElem_ne _ hlen hj1]
  · rw [writeAt_getElem_ne _ hl1 (by omega), writeAt_getElem_self _ hlen]
  · rw [writeAt_getElem_self _ hl1]

/-- The forward-back trace followed by one more advance-retreat pair that
re-submits different transcripts. -/
def roundTripTrace : List NavEvent :=
  forwardBackTrace ++ [NavEvent.nextQuestion "B" 0, NavEvent.previousQuestion "C" 0]

/-- Counterexample for C8 as stated: the extra advance-retreat pair
restores `current_question_index` but does alter the stored pairs — the
retreat overwrites the answers at the two visited indices with the
transcripts submitted on the way. -/
theorem advance_retreat_counterexample :
    (runSession threeQuestions roundTripTrace).current_question_index =
      (runSession threeQuestions forwardBackTrace).current_question_index ∧
    (runSession threeQuestions roundTripTrace).qa_pairs ≠
      (runSession threeQuestions forwardBackTrace).qa_pairs := by
  decide

/-- Witness for C8 (amended) at the start of the three-question
interview. -/
theorem advance_retreat_round_trip_witness :
    (initSession.current_question_index + 1 < threeQuestions.length ∧
     initSession.interview_complete = false ∧
     ¬ trimStr "a" = "" ∧ ¬ trimStr "b" = "" ∧
     initSession.current_question_index ≤ initSession.qa_pairs.length) ∧
    ((advanceRetreat threeQuestions initSession "a" "b" 0 0).current_question_index =
      initSession.current_question_index ∧
     (advanceRetreat threeQuestions initSession "a" "b" 0 0).interview_complete = false ∧
     (∀ j, j ≠ initSession.current_question_index →
       j ≠ initSession.current_question_index + 1 →
       (advanceRetreat threeQuestions initSession "a" "b" 0 0).qa_pairs[j]? =
         initSession.qa_pairs[j]?) ∧
     (advanceRetreat threeQuestions initSession "a" "b" 0 0).qa_pairs[
       initSession.current_question_index]? =
       some { question := threeQuestions.get ⟨initSession.current_question_index, by decide⟩,
              answer := "a", duration := 0 } ∧
     (advanceRetreat threeQuestions initSession "a" "b" 0 0).qa_pairs[
       initSession.current_question_index + 1]? =
       some { question := threeQuestions.get ⟨initSession.current_question_index + 1,
                by decide⟩,
              answer := "b", duration := 0 }) :=
  ⟨⟨by decide, rfl, by decide, by decide, Nat.le_refl _⟩,
   advance_retreat_round_trip threeQuestions initSession "a" "b" 0 0 (by decide) rfl
     (by decide) (by decide) (Nat.le_refl _)⟩

end InterviewBot
